import Mathlib

/-!
# PCA9555 bus adapter (`PCA9555_Interfaces.c`)

A shallow embedding of the three I2C primitives of the driver
(`pca9555_i2c_start`, `pca9555_i2c_send`, `pca9555_i2c_receive`).

The driver is a thin layer over the vendor I2C library.  Every library call
the driver makes is recorded, with its arguments and with the value the
library returned, in a trace (`World`).  What the library returns is not
decided by the driver, so it is supplied by an environment (`Env`): an
arbitrary function of the history and of the call, as a mock bus would be.

The logging shim `pca9555_log` does not call the I2C library and is left out.
-/

namespace PCA9555

/-! ## Types of the vendor library used by the driver -/

/-- The C type `esp_err_t` (a 32-bit `int`).  The driver only combines status
codes with bitwise or, which cannot leave the 32-bit range, so no reduction
modulo `2^32` is needed. -/
abbrev esp_err_t := Int

/-- Modelled from the spec: the success status `ESP_OK` of the vendor
library (its header is not part of the repository); the value is `0`. -/
def ESP_OK : esp_err_t := 0

/-- The C type `i2c_cmd_handle_t`: a command link, as an address (`0` is the
null handle). -/
abbrev i2c_cmd_handle_t := Nat

/-- A byte address (`void *`, `uint8_t *`). -/
abbrev Ptr := Int

/-- The C enum `i2c_ack_type_t`. -/
inductive i2c_ack_type_t where
  | I2C_MASTER_ACK
  | I2C_MASTER_NACK
  | I2C_MASTER_LAST_NACK
  deriving DecidableEq, Repr

/-- The C enum `i2c_mode_t`. -/
inductive i2c_mode_t where
  | I2C_MODE_SLAVE
  | I2C_MODE_MASTER
  deriving DecidableEq, Repr

/-- The C enum `gpio_pullup_t`. -/
inductive gpio_pullup_t where
  | GPIO_PULLUP_DISABLE
  | GPIO_PULLUP_ENABLE
  deriving DecidableEq, Repr

/-- Modelled from the spec: the write-direction bit `I2C_MASTER_WRITE` of the
vendor library (a constant of a header that is not part of the repository);
the value is `0`. -/
def I2C_MASTER_WRITE : Int := 0

/-- Modelled from the spec: the read-direction bit `I2C_MASTER_READ` of the
vendor library (a constant of a header that is not part of the repository);
the value is `1`. -/
def I2C_MASTER_READ : Int := 1

/-- Modelled from the spec: the bus instance `I2C_NUM_0` of the vendor library
(a constant of a header that is not part of the repository); bus `0`. -/
def I2C_NUM_0 : Int := 0

/-- Modelled from the spec: the struct `pca9555_config_t` of
`PCA9555_Interfaces.h` (the header is not part of the repository), with the
four fields `pca9555_i2c_start` reads. -/
structure pca9555_config_t where
  i2c_iface_num : Int
  i2c_sda : Int
  i2c_scl : Int
  i2c_freq_hz : Int
  deriving DecidableEq, Repr

/-- The fields of the vendor struct `i2c_config_t` that `pca9555_i2c_start`
sets (`clk_speed` is the member `master.clk_speed`). -/
structure i2c_config_t where
  mode : i2c_mode_t
  sda_io_num : Int
  scl_io_num : Int
  sda_pullup_en : gpio_pullup_t
  scl_pullup_en : gpio_pullup_t
  clk_speed : Int
  deriving DecidableEq, Repr

/-! ## Calls into the vendor library, and their trace -/

/-- One call of the driver into the vendor library, with its arguments. -/
inductive Call where
  | i2c_param_config (i2c_num : Int) (i2c_conf : i2c_config_t)
  | i2c_driver_install (i2c_num : Int) (mode : i2c_mode_t)
      (slv_rx_buf_len slv_tx_buf_len : Nat) (intr_alloc_flags : Int)
  | i2c_cmd_link_create
  | i2c_master_start (cmd : i2c_cmd_handle_t)
  | i2c_master_write_byte (cmd : i2c_cmd_handle_t) (data : Nat) (ack_en : Bool)
  | i2c_master_write (cmd : i2c_cmd_handle_t) (data : Ptr) (data_len : Nat) (ack_en : Bool)
  | i2c_master_read (cmd : i2c_cmd_handle_t) (data : Ptr) (data_len : Nat)
      (ack : i2c_ack_type_t)
  | i2c_master_read_byte (cmd : i2c_cmd_handle_t) (data : Ptr) (ack : i2c_ack_type_t)
  | i2c_master_stop (cmd : i2c_cmd_handle_t)
  | i2c_master_cmd_begin (i2c_num : Int) (cmd : i2c_cmd_handle_t) (ticks_to_wait : Nat)
  | i2c_cmd_link_delete (cmd : i2c_cmd_handle_t)
  | ESP_LOGE (err : esp_err_t)
  deriving DecidableEq, Repr

/-- What a library call gave back to the driver. -/
inductive Ret where
  | void
  | handle (cmd : i2c_cmd_handle_t)
  | status (err : esp_err_t)
  deriving DecidableEq, Repr

/-- A library call together with what it returned. -/
structure Event where
  call : Call
  ret : Ret
  deriving DecidableEq, Repr

/-- The trace of library calls so far, oldest first. -/
abbrev World := List Event

/-- The environment of the driver: what the vendor library answers.
`link_create` is the handle `i2c_cmd_link_create` returns, `status` the
`esp_err_t` each fallible call returns (both may depend on the whole history),
and `pdMS_TO_TICKS` is the RTOS macro of that name, from milliseconds to
ticks. -/
structure Env where
  link_create : World → i2c_cmd_handle_t
  status : World → Call → esp_err_t
  pdMS_TO_TICKS : Nat → Nat

/-- A library call that returns an `esp_err_t`. -/
def fallible (env : Env) (c : Call) (w : World) : esp_err_t × World :=
  let r := env.status w c
  (r, w ++ [⟨c, Ret.status r⟩])

/-- A library call that returns nothing. -/
def procedure (c : Call) (w : World) : Unit × World :=
  ((), w ++ [⟨c, Ret.void⟩])

/-- The library function `i2c_param_config`. -/
def i2c_param_config (env : Env) (i2c_num : Int) (i2c_conf : i2c_config_t) (w : World) :
    esp_err_t × World :=
  fallible env (Call.i2c_param_config i2c_num i2c_conf) w

/-- The library function `i2c_driver_install`. -/
def i2c_driver_install (env : Env) (i2c_num : Int) (mode : i2c_mode_t)
    (slv_rx_buf_len slv_tx_buf_len : Nat) (intr_alloc_flags : Int) (w : World) :
    esp_err_t × World :=
  fallible env
    (Call.i2c_driver_install i2c_num mode slv_rx_buf_len slv_tx_buf_len intr_alloc_flags) w

/-- The library function `i2c_cmd_link_create`: the environment supplies the handle. -/
def i2c_cmd_link_create (env : Env) (w : World) : i2c_cmd_handle_t × World :=
  let h := env.link_create w
  (h, w ++ [⟨Call.i2c_cmd_link_create, Ret.handle h⟩])

/-- The library function `i2c_master_start`. -/
def i2c_master_start (env : Env) (cmd : i2c_cmd_handle_t) (w : World) : esp_err_t × World :=
  fallible env (Call.i2c_master_start cmd) w

/-- The library function `i2c_master_write_byte`. -/
def i2c_master_write_byte (env : Env) (cmd : i2c_cmd_handle_t) (data : Nat) (ack_en : Bool)
    (w : World) : esp_err_t × World :=
  fallible env (Call.i2c_master_write_byte cmd data ack_en) w

/-- The library function `i2c_master_write`. -/
def i2c_master_write (env : Env) (cmd : i2c_cmd_handle_t) (data : Ptr) (data_len : Nat)
    (ack_en : Bool) (w : World) : esp_err_t × World :=
  fallible env (Call.i2c_master_write cmd data data_len ack_en) w

/-- The library function `i2c_master_read`. -/
def i2c_master_read (env : Env) (cmd : i2c_cmd_handle_t) (data : Ptr) (data_len : Nat)
    (ack : i2c_ack_type_t) (w : World) : esp_err_t × World :=
  fallible env (Call.i2c_master_read cmd data data_len ack) w

/-- The library function `i2c_master_read_byte`. -/
def i2c_master_read_byte (env : Env) (cmd : i2c_cmd_handle_t) (data : Ptr)
    (ack : i2c_ack_type_t) (w : World) : esp_err_t × World :=
  fallible env (Call.i2c_master_read_byte cmd data ack) w

/-- The library function `i2c_master_stop`. -/
def i2c_master_stop (env : Env) (cmd : i2c_cmd_handle_t) (w : World) : esp_err_t × World :=
  fallible env (Call.i2c_master_stop cmd) w

/-- The library function `i2c_master_cmd_begin`. -/
def i2c_master_cmd_begin (env : Env) (i2c_num : Int) (cmd : i2c_cmd_handle_t)
    (ticks_to_wait : Nat) (w : World) : esp_err_t × World :=
  fallible env (Call.i2c_master_cmd_begin i2c_num cmd ticks_to_wait) w

/-- The library function `i2c_cmd_link_delete`. -/
def i2c_cmd_link_delete (cmd : i2c_cmd_handle_t) (w : World) : Unit × World :=
  procedure (Call.i2c_cmd_link_delete cmd) w

/-- The logging statement `ESP_LOGE("PCA9555", "I2C send failed: %s", esp_err_to_name(err))`. -/
def ESP_LOGE (err : esp_err_t) (w : World) : Unit × World :=
  procedure (Call.ESP_LOGE err) w

/-- Conversion of an `int` argument to the `uint8_t` parameter of
`i2c_master_write_byte`: reduction modulo `2^8`. -/
def to_uint8 (x : Int) : Nat := (x % 256).toNat

/-! ## The driver -/

/-- The local variable `i2c_config` of `pca9555_i2c_start`, as initialised from
`config`. -/
def start_i2c_config (config : pca9555_config_t) : i2c_config_t :=
  { mode := i2c_mode_t.I2C_MODE_MASTER
    sda_io_num := config.i2c_sda
    scl_io_num := config.i2c_scl
    sda_pullup_en := gpio_pullup_t.GPIO_PULLUP_ENABLE
    scl_pullup_en := gpio_pullup_t.GPIO_PULLUP_ENABLE
    clk_speed := config.i2c_freq_hz }

/-- The function `int pca9555_i2c_start(const pca9555_config_t *config)`. -/
def pca9555_i2c_start (env : Env) (config : pca9555_config_t) (w : World) : Int × World :=
  let i2c_config : i2c_config_t := start_i2c_config config
  let (err, w) := i2c_param_config env config.i2c_iface_num i2c_config w
  if err ≠ ESP_OK then
    (-1, w)
  else
    let (err, w) :=
      i2c_driver_install env config.i2c_iface_num i2c_mode_t.I2C_MODE_MASTER 0 0 0 w
    if err ≠ ESP_OK then
      (-1, w)
    else
      (0, w)

/-- The function
`int pca9555_i2c_send(int i2c_num, int i2c_addr, const void *data, size_t len)`. -/
def pca9555_i2c_send (env : Env) (i2c_num i2c_addr : Int) (data : Ptr) (len : Nat)
    (w : World) : Int × World :=
  let (cmd, w) := i2c_cmd_link_create env w
  let (err, w) := i2c_master_start env cmd w
  let (r, w) :=
    i2c_master_write_byte env cmd (to_uint8 (Int.lor (i2c_addr <<< (1 : Int)) I2C_MASTER_WRITE))
      true w
  let err := Int.lor err r
  let (r, w) := i2c_master_write env cmd data len true w
  let err := Int.lor err r
  let (r, w) := i2c_master_stop env cmd w
  let err := Int.lor err r
  let (r, w) := i2c_master_cmd_begin env i2c_num cmd (env.pdMS_TO_TICKS 2) w
  let err := Int.lor err r
  let (_, w) := i2c_cmd_link_delete cmd w
  if err ≠ ESP_OK then
    let (_, w) := ESP_LOGE err w
    (-1, w)
  else
    (0, w)

/-- The function `int pca9555_i2c_receive(int i2c_addr, void *data_buffer, size_t len)`.
The address of the last byte, `data_buffer + len - 1`, is computed on the byte
pointer: for `len = 0` it is the address before the buffer. -/
def pca9555_i2c_receive (env : Env) (i2c_addr : Int) (data_buffer : Ptr) (len : Nat)
    (w : World) : Int × World :=
  let (cmd, w) := i2c_cmd_link_create env w
  let (err, w) := i2c_master_start env cmd w
  let (r, w) :=
    i2c_master_write_byte env cmd (to_uint8 (Int.lor (i2c_addr <<< (1 : Int)) I2C_MASTER_READ))
      true w
  let err := Int.lor err r
  let (err, w) :=
    if len > 1 then
      let (r, w) := i2c_master_read env cmd data_buffer (len - 1) i2c_ack_type_t.I2C_MASTER_ACK w
      (Int.lor err r, w)
    else
      (err, w)
  let (r, w) :=
    i2c_master_read_byte env cmd (data_buffer + len - 1) i2c_ack_type_t.I2C_MASTER_NACK w
  let err := Int.lor err r
  let (r, w) := i2c_master_stop env cmd w
  let err := Int.lor err r
  let (r, w) := i2c_master_cmd_begin env I2C_NUM_0 cmd (env.pdMS_TO_TICKS 5) w
  let err := Int.lor err r
  let (_, w) := i2c_cmd_link_delete cmd w
  if err ≠ ESP_OK then
    (-1, w)
  else
    (0, w)

/-! ## Observations on a trace -/

/-- The events recorded after the history `w0`. -/
def since (w0 w : World) : List Event := w.drop w0.length

/-- The calls of a list of events, in order. -/
def calls (evs : List Event) : List Call := evs.map Event.call

/-- A call into the I2C library (everything but the logging statement). -/
def Call.isBusOp : Call → Bool
  | Call.ESP_LOGE _ => false
  | _ => true

/-- The calls into the I2C library of a list of events, in order. -/
def busOps (evs : List Event) : List Call := (calls evs).filter Call.isBusOp

/-- The creation of a command link. -/
def Call.isCreate : Call → Bool
  | Call.i2c_cmd_link_create => true
  | _ => false

/-- The release of a command link. -/
def Call.isDelete : Call → Bool
  | Call.i2c_cmd_link_delete _ => true
  | _ => false

/-- The submission of a command link to a bus. -/
def Call.isSubmit : Call → Bool
  | Call.i2c_master_cmd_begin _ _ _ => true
  | _ => false

/-- The status code of an event, when the call returned one. -/
def Event.status (e : Event) : Option esp_err_t :=
  match e.ret with
  | Ret.status s => some s
  | _ => none

/-- The status codes the library returned, in order. -/
def statuses (evs : List Event) : List esp_err_t := evs.filterMap Event.status

/-- The calls that returned a status code (the fallible steps), in order. -/
def stepCalls (evs : List Event) : List Call :=
  (evs.filter fun e => e.status.isSome).map Event.call

/-- The handles the library returned, in order. -/
def handles (evs : List Event) : List i2c_cmd_handle_t :=
  evs.filterMap fun e => match e.ret with
    | Ret.handle h => some h
    | _ => none

/-! ## What a command link holds

Modelled from the spec (section 6, the capabilities of the external bus
controller: add-start, add-address-byte, add-write-bytes, add-read-bytes,
add-stop): the items the framing calls queue on a command link, which the
submit step plays on the bus in this order. -/

/-- One item on the bus. -/
inductive BusItem where
  | start
  | write (byte : Nat) (ack_check : Bool)
  | read (dest : Ptr) (ack : i2c_ack_type_t)
  | stop
  deriving DecidableEq, Repr

/-- Modelled from the spec: the acknowledge of byte `i` of a read of `n` bytes
(the vendor library is not part of the repository).  `I2C_MASTER_ACK` and
`I2C_MASTER_NACK` apply to every byte, `I2C_MASTER_LAST_NACK` acknowledges all
bytes but the last. -/
def ackOf (ack : i2c_ack_type_t) (n i : Nat) : i2c_ack_type_t :=
  match ack with
  | i2c_ack_type_t.I2C_MASTER_LAST_NACK =>
    if i + 1 = n then i2c_ack_type_t.I2C_MASTER_NACK else i2c_ack_type_t.I2C_MASTER_ACK
  | a => a

/-- Modelled from the spec: the bus items one framing call queues on the
command link `cmd` (the vendor library is not part of the repository).  `mem`
is the memory of the caller, from which the bytes of a multi-byte write are
taken. -/
def queued (mem : Ptr → Nat) (cmd : i2c_cmd_handle_t) : Call → List BusItem
  | Call.i2c_master_start c => if c = cmd then [BusItem.start] else []
  | Call.i2c_master_write_byte c b ack_en => if c = cmd then [BusItem.write b ack_en] else []
  | Call.i2c_master_write c data n ack_en =>
    if c = cmd then (List.range n).map fun (i : Nat) => BusItem.write (mem (data + (i : Int))) ack_en else []
  | Call.i2c_master_read c data n ack =>
    if c = cmd then (List.range n).map fun (i : Nat) => BusItem.read (data + (i : Int)) (ackOf ack n i) else []
  | Call.i2c_master_read_byte c data ack => if c = cmd then [BusItem.read data ack] else []
  | Call.i2c_master_stop c => if c = cmd then [BusItem.stop] else []
  | _ => []

/-- The bus items queued on the command link `cmd` by a sequence of calls. -/
def transaction (mem : Ptr → Nat) (cmd : i2c_cmd_handle_t) (cs : List Call) : List BusItem :=
  (cs.map (queued mem cmd)).flatten

/-- The address a bus item stores into, when it is a read. -/
def BusItem.target : BusItem → Option Ptr
  | BusItem.read dest _ => some dest
  | _ => none

/-- The addresses the reads of a transaction store into, in order. -/
def readTargets (items : List BusItem) : List Ptr := items.filterMap BusItem.target

/-- The acknowledge type of a bus item, when it is a read. -/
def BusItem.ack : BusItem → Option i2c_ack_type_t
  | BusItem.read _ ack => some ack
  | _ => none

/-- The acknowledge type of each read of a transaction, in order. -/
def readAcks (items : List BusItem) : List i2c_ack_type_t := items.filterMap BusItem.ack

/-- An environment in which every library call succeeds; the command link is
at address `7` and a tick is a millisecond. -/
def okEnv : Env where
  link_create := fun _ => 7
  status := fun _ _ => ESP_OK
  pdMS_TO_TICKS := fun ms => ms

/-- A memory for the worked examples: the byte at address `p` is `p - 999`, so
that `[1, 2, 3]` lies at address `1000`. -/
def demoMem : Ptr → Nat := fun p => (p - 999).toNat

/-! ## Lemmas on the bitwise operations -/

/-- The bitwise or of two naturals is zero exactly when both are. -/
theorem nat_or_eq_zero (m n : Nat) : m ||| n = 0 ↔ m = 0 ∧ n = 0 := by
  constructor
  · intro h
    have hb : ∀ i, (m.testBit i || n.testBit i) = false := by
      intro i
      rw [← Nat.testBit_or, h, Nat.zero_testBit]
    constructor
    · apply Nat.eq_of_testBit_eq
      intro i
      have := hb i
      simp only [Bool.or_eq_false_iff] at this
      simp [this.1]
    · apply Nat.eq_of_testBit_eq
      intro i
      have := hb i
      simp only [Bool.or_eq_false_iff] at this
      simp [this.2]
  · rintro ⟨rfl, rfl⟩
    rfl

/-- The bitwise or of two status codes is zero exactly when both are. -/
theorem lor_eq_zero (a b : Int) : Int.lor a b = 0 ↔ a = 0 ∧ b = 0 := by
  cases a with
  | ofNat m =>
    cases b with
    | ofNat n =>
      simp only [Int.lor, Int.ofNat_eq_coe]
      rw [Int.natCast_eq_zero, Int.natCast_eq_zero, Int.natCast_eq_zero]
      exact nat_or_eq_zero m n
    | negSucc n => simp [Int.lor]
  | negSucc m =>
    cases b with
    | ofNat n => simp [Int.lor]
    | negSucc n => simp [Int.lor]

/-- Zero is neutral for the bitwise or. -/
theorem zero_lor (a : Int) : Int.lor 0 a = a := by
  cases a with
  | ofNat n =>
    show Int.lor (Int.ofNat 0) (Int.ofNat n) = Int.ofNat n
    simp [Int.lor]
  | negSucc n =>
    show Int.lor (Int.ofNat 0) (Int.negSucc n) = Int.negSucc n
    simp [Int.lor, Nat.ldiff]

/-- The address byte of a write to a 7-bit address. -/
theorem write_address_byte (a : Nat) (h : a ≤ 127) :
    to_uint8 (Int.lor ((a : Int) <<< (1 : Int)) I2C_MASTER_WRITE) = 2 * a := by
  interval_cases a <;> rfl

/-- The address byte of a read from a 7-bit address. -/
theorem read_address_byte (a : Nat) (h : a ≤ 127) :
    to_uint8 (Int.lor ((a : Int) <<< (1 : Int)) I2C_MASTER_READ) = 2 * a + 1 := by
  interval_cases a <;> rfl


/-- The aggregated status is `ESP_OK` exactly when every status is. -/
theorem foldl_lor_eq_zero (l : List esp_err_t) (acc : esp_err_t) :
    List.foldl Int.lor acc l = 0 ↔ acc = 0 ∧ ∀ s ∈ l, s = 0 := by
  induction l generalizing acc with
  | nil => simp
  | cons x xs ih =>
    rw [List.foldl_cons, ih, lor_eq_zero]
    simp [and_assoc]

/-! ## The trace of one call of the driver -/

/-- The events after `w0` of a trace that extends `w0`. -/
theorem since_append (w0 evs : List Event) : since w0 (w0 ++ evs) = evs := by
  simp [since]


/-- The shape of one `pca9555_i2c_send`: its seven library calls, the five
status codes they return, and the result. -/
theorem send_shape (env : Env) (n a : Int) (d : Ptr) (l : Nat) (w0 : World) :
    ∃ s1 s2 s3 s4 s5 : esp_err_t,
      pca9555_i2c_send env n a d l w0 =
        if Int.lor (Int.lor (Int.lor (Int.lor s1 s2) s3) s4) s5 ≠ ESP_OK then
          (-1, w0 ++
            [⟨Call.i2c_cmd_link_create, Ret.handle (env.link_create w0)⟩,
             ⟨Call.i2c_master_start (env.link_create w0), Ret.status s1⟩,
             ⟨Call.i2c_master_write_byte (env.link_create w0)
                (to_uint8 (Int.lor (a <<< (1 : Int)) I2C_MASTER_WRITE)) true, Ret.status s2⟩,
             ⟨Call.i2c_master_write (env.link_create w0) d l true, Ret.status s3⟩,
             ⟨Call.i2c_master_stop (env.link_create w0), Ret.status s4⟩,
             ⟨Call.i2c_master_cmd_begin n (env.link_create w0) (env.pdMS_TO_TICKS 2),
                Ret.status s5⟩,
             ⟨Call.i2c_cmd_link_delete (env.link_create w0), Ret.void⟩,
             ⟨Call.ESP_LOGE (Int.lor (Int.lor (Int.lor (Int.lor s1 s2) s3) s4) s5), Ret.void⟩])
        else
          (0, w0 ++
            [⟨Call.i2c_cmd_link_create, Ret.handle (env.link_create w0)⟩,
             ⟨Call.i2c_master_start (env.link_create w0), Ret.status s1⟩,
             ⟨Call.i2c_master_write_byte (env.link_create w0)
                (to_uint8 (Int.lor (a <<< (1 : Int)) I2C_MASTER_WRITE)) true, Ret.status s2⟩,
             ⟨Call.i2c_master_write (env.link_create w0) d l true, Ret.status s3⟩,
             ⟨Call.i2c_master_stop (env.link_create w0), Ret.status s4⟩,
             ⟨Call.i2c_master_cmd_begin n (env.link_create w0) (env.pdMS_TO_TICKS 2),
                Ret.status s5⟩,
             ⟨Call.i2c_cmd_link_delete (env.link_create w0), Ret.void⟩]) := by
  simp only [pca9555_i2c_send, i2c_cmd_link_create, i2c_master_start, i2c_master_write_byte,
    i2c_master_write, i2c_master_stop, i2c_master_cmd_begin, i2c_cmd_link_delete, ESP_LOGE,
    fallible, procedure, List.append_assoc, List.singleton_append, List.cons_append,
    List.nil_append]
  exact ⟨_, _, _, _, _, rfl⟩


/-- The shape of one `pca9555_i2c_receive` of more than one byte: its eight
library calls, the six status codes they return, and the result. -/
theorem receive_shape_multi (env : Env) (a : Int) (buf : Ptr) (len : Nat) (w0 : World)
    (hlen : 1 < len) :
    ∃ s1 s2 s3 s4 s5 s6 : esp_err_t,
      pca9555_i2c_receive env a buf len w0 =
        if Int.lor (Int.lor (Int.lor (Int.lor (Int.lor s1 s2) s3) s4) s5) s6 ≠ ESP_OK then
          (-1, w0 ++
            [⟨Call.i2c_cmd_link_create, Ret.handle (env.link_create w0)⟩,
             ⟨Call.i2c_master_start (env.link_create w0), Ret.status s1⟩,
             ⟨Call.i2c_master_write_byte (env.link_create w0)
                (to_uint8 (Int.lor (a <<< (1 : Int)) I2C_MASTER_READ)) true, Ret.status s2⟩,
             ⟨Call.i2c_master_read (env.link_create w0) buf (len - 1)
                i2c_ack_type_t.I2C_MASTER_ACK, Ret.status s3⟩,
             ⟨Call.i2c_master_read_byte (env.link_create w0) (buf + len - 1)
                i2c_ack_type_t.I2C_MASTER_NACK, Ret.status s4⟩,
             ⟨Call.i2c_master_stop (env.link_create w0), Ret.status s5⟩,
             ⟨Call.i2c_master_cmd_begin I2C_NUM_0 (env.link_create w0) (env.pdMS_TO_TICKS 5),
                Ret.status s6⟩,
             ⟨Call.i2c_cmd_link_delete (env.link_create w0), Ret.void⟩])
        else
          (0, w0 ++
            [⟨Call.i2c_cmd_link_create, Ret.handle (env.link_create w0)⟩,
             ⟨Call.i2c_master_start (env.link_create w0), Ret.status s1⟩,
             ⟨Call.i2c_master_write_byte (env.link_create w0)
                (to_uint8 (Int.lor (a <<< (1 : Int)) I2C_MASTER_READ)) true, Ret.status s2⟩,
             ⟨Call.i2c_master_read (env.link_create w0) buf (len - 1)
                i2c_ack_type_t.I2C_MASTER_ACK, Ret.status s3⟩,
             ⟨Call.i2c_master_read_byte (env.link_create w0) (buf + len - 1)
                i2c_ack_type_t.I2C_MASTER_NACK, Ret.status s4⟩,
             ⟨Call.i2c_master_stop (env.link_create w0), Ret.status s5⟩,
             ⟨Call.i2c_master_cmd_begin I2C_NUM_0 (env.link_create w0) (env.pdMS_TO_TICKS 5),
                Ret.status s6⟩,
             ⟨Call.i2c_cmd_link_delete (env.link_create w0), Ret.void⟩]) := by
  simp only [pca9555_i2c_receive, i2c_cmd_link_create, i2c_master_start, i2c_master_write_byte,
    i2c_master_read, i2c_master_read_byte, i2c_master_stop, i2c_master_cmd_begin,
    i2c_cmd_link_delete, fallible, procedure, gt_iff_lt, hlen, if_true, List.append_assoc,
    List.singleton_append, List.cons_append, List.nil_append]
  exact ⟨_, _, _, _, _, _, rfl⟩

/-- The shape of one `pca9555_i2c_receive` of at most one byte: its seven
library calls, the five status codes they return, and the result. -/
theorem receive_shape_single (env : Env) (a : Int) (buf : Ptr) (len : Nat) (w0 : World)
    (hlen : ¬ 1 < len) :
    ∃ s1 s2 s4 s5 s6 : esp_err_t,
      pca9555_i2c_receive env a buf len w0 =
        if Int.lor (Int.lor (Int.lor (Int.lor s1 s2) s4) s5) s6 ≠ ESP_OK then
          (-1, w0 ++
            [⟨Call.i2c_cmd_link_create, Ret.handle (env.link_create w0)⟩,
             ⟨Call.i2c_master_start (env.link_create w0), Ret.status s1⟩,
             ⟨Call.i2c_master_write_byte (env.link_create w0)
                (to_uint8 (Int.lor (a <<< (1 : Int)) I2C_MASTER_READ)) true, Ret.status s2⟩,
             ⟨Call.i2c_master_read_byte (env.link_create w0) (buf + len - 1)
                i2c_ack_type_t.I2C_MASTER_NACK, Ret.status s4⟩,
             ⟨Call.i2c_master_stop (env.link_create w0), Ret.status s5⟩,
             ⟨Call.i2c_master_cmd_begin I2C_NUM_0 (env.link_create w0) (env.pdMS_TO_TICKS 5),
                Ret.status s6⟩,
             ⟨Call.i2c_cmd_link_delete (env.link_create w0), Ret.void⟩])
        else
          (0, w0 ++
            [⟨Call.i2c_cmd_link_create, Ret.handle (env.link_create w0)⟩,
             ⟨Call.i2c_master_start (env.link_create w0), Ret.status s1⟩,
             ⟨Call.i2c_master_write_byte (env.link_create w0)
                (to_uint8 (Int.lor (a <<< (1 : Int)) I2C_MASTER_READ)) true, Ret.status s2⟩,
             ⟨Call.i2c_master_read_byte (env.link_create w0) (buf + len - 1)
                i2c_ack_type_t.I2C_MASTER_NACK, Ret.status s4⟩,
             ⟨Call.i2c_master_stop (env.link_create w0), Ret.status s5⟩,
             ⟨Call.i2c_master_cmd_begin I2C_NUM_0 (env.link_create w0) (env.pdMS_TO_TICKS 5),
                Ret.status s6⟩,
             ⟨Call.i2c_cmd_link_delete (env.link_create w0), Ret.void⟩]) := by
  simp only [pca9555_i2c_receive, i2c_cmd_link_create, i2c_master_start, i2c_master_write_byte,
    i2c_master_read, i2c_master_read_byte, i2c_master_stop, i2c_master_cmd_begin,
    i2c_cmd_link_delete, fallible, procedure, gt_iff_lt, hlen, if_false, List.append_assoc,
    List.singleton_append, List.cons_append, List.nil_append]
  exact ⟨_, _, _, _, _, rfl⟩

/-- The library calls of one `pca9555_i2c_send`. -/
theorem send_busOps (env : Env) (n a : Int) (d : Ptr) (l : Nat) (w0 : World) :
    busOps (since w0 (pca9555_i2c_send env n a d l w0).2) =
      [Call.i2c_cmd_link_create,
       Call.i2c_master_start (env.link_create w0),
       Call.i2c_master_write_byte (env.link_create w0)
         (to_uint8 (Int.lor (a <<< (1 : Int)) I2C_MASTER_WRITE)) true,
       Call.i2c_master_write (env.link_create w0) d l true,
       Call.i2c_master_stop (env.link_create w0),
       Call.i2c_master_cmd_begin n (env.link_create w0) (env.pdMS_TO_TICKS 2),
       Call.i2c_cmd_link_delete (env.link_create w0)] := by
  obtain ⟨s1, s2, s3, s4, s5, h⟩ := send_shape env n a d l w0
  rw [h]
  split <;> simp [since_append, busOps, calls, Call.isBusOp]

/-- The library calls of one `pca9555_i2c_receive`. -/
theorem receive_busOps (env : Env) (a : Int) (buf : Ptr) (len : Nat) (w0 : World) :
    busOps (since w0 (pca9555_i2c_receive env a buf len w0).2) =
      [Call.i2c_cmd_link_create,
       Call.i2c_master_start (env.link_create w0),
       Call.i2c_master_write_byte (env.link_create w0)
         (to_uint8 (Int.lor (a <<< (1 : Int)) I2C_MASTER_READ)) true] ++
      (if 1 < len then
        [Call.i2c_master_read (env.link_create w0) buf (len - 1) i2c_ack_type_t.I2C_MASTER_ACK]
       else []) ++
      [Call.i2c_master_read_byte (env.link_create w0) (buf + len - 1)
         i2c_ack_type_t.I2C_MASTER_NACK,
       Call.i2c_master_stop (env.link_create w0),
       Call.i2c_master_cmd_begin I2C_NUM_0 (env.link_create w0) (env.pdMS_TO_TICKS 5),
       Call.i2c_cmd_link_delete (env.link_create w0)] := by
  by_cases hlen : 1 < len
  · obtain ⟨s1, s2, s3, s4, s5, s6, h⟩ := receive_shape_multi env a buf len w0 hlen
    rw [h]
    split <;> simp [since_append, busOps, calls, Call.isBusOp, hlen]
  · obtain ⟨s1, s2, s4, s5, s6, h⟩ := receive_shape_single env a buf len w0 hlen
    rw [h]
    split <;> simp [since_append, busOps, calls, Call.isBusOp, hlen]

/-- The result of `pca9555_i2c_send`, from the bitwise or of the status codes
its library calls returned. -/
theorem send_ret (env : Env) (n a : Int) (d : Ptr) (l : Nat) (w0 : World) :
    (pca9555_i2c_send env n a d l w0).1 =
      if List.foldl Int.lor ESP_OK (statuses (since w0 (pca9555_i2c_send env n a d l w0).2))
          ≠ ESP_OK then -1 else 0 := by
  obtain ⟨s1, s2, s3, s4, s5, h⟩ := send_shape env n a d l w0
  rw [h]
  by_cases hc : Int.lor (Int.lor (Int.lor (Int.lor s1 s2) s3) s4) s5 ≠ ESP_OK
  · rw [if_pos hc]
    simp only [since_append, statuses, Event.status, List.filterMap_cons, List.filterMap_nil,
      List.foldl_cons, List.foldl_nil, ESP_OK, zero_lor]
    exact (if_pos hc).symm
  · rw [if_neg hc]
    simp only [since_append, statuses, Event.status, List.filterMap_cons, List.filterMap_nil,
      List.foldl_cons, List.foldl_nil, ESP_OK, zero_lor]
    exact (if_neg hc).symm

/-- The result of `pca9555_i2c_receive`, from the bitwise or of the status
codes its library calls returned. -/
theorem receive_ret (env : Env) (a : Int) (buf : Ptr) (len : Nat) (w0 : World) :
    (pca9555_i2c_receive env a buf len w0).1 =
      if List.foldl Int.lor ESP_OK (statuses (since w0 (pca9555_i2c_receive env a buf len w0).2))
          ≠ ESP_OK then -1 else 0 := by
  by_cases hlen : 1 < len
  · obtain ⟨s1, s2, s3, s4, s5, s6, h⟩ := receive_shape_multi env a buf len w0 hlen
    rw [h]
    by_cases hc : Int.lor (Int.lor (Int.lor (Int.lor (Int.lor s1 s2) s3) s4) s5) s6 ≠ ESP_OK
    · rw [if_pos hc]
      simp only [since_append, statuses, Event.status, List.filterMap_cons, List.filterMap_nil,
        List.foldl_cons, List.foldl_nil, ESP_OK, zero_lor]
      exact (if_pos hc).symm
    · rw [if_neg hc]
      simp only [since_append, statuses, Event.status, List.filterMap_cons, List.filterMap_nil,
        List.foldl_cons, List.foldl_nil, ESP_OK, zero_lor]
      exact (if_neg hc).symm
  · obtain ⟨s1, s2, s4, s5, s6, h⟩ := receive_shape_single env a buf len w0 hlen
    rw [h]
    by_cases hc : Int.lor (Int.lor (Int.lor (Int.lor s1 s2) s4) s5) s6 ≠ ESP_OK
    · rw [if_pos hc]
      simp only [since_append, statuses, Event.status, List.filterMap_cons, List.filterMap_nil,
        List.foldl_cons, List.foldl_nil, ESP_OK, zero_lor]
      exact (if_pos hc).symm
    · rw [if_neg hc]
      simp only [since_append, statuses, Event.status, List.filterMap_cons, List.filterMap_nil,
        List.foldl_cons, List.foldl_nil, ESP_OK, zero_lor]
      exact (if_neg hc).symm

/-- The fallible steps of one `pca9555_i2c_send`. -/
theorem send_stepCalls (env : Env) (n a : Int) (d : Ptr) (l : Nat) (w0 : World) :
    stepCalls (since w0 (pca9555_i2c_send env n a d l w0).2) =
      [Call.i2c_master_start (env.link_create w0),
       Call.i2c_master_write_byte (env.link_create w0)
         (to_uint8 (Int.lor (a <<< (1 : Int)) I2C_MASTER_WRITE)) true,
       Call.i2c_master_write (env.link_create w0) d l true,
       Call.i2c_master_stop (env.link_create w0),
       Call.i2c_master_cmd_begin n (env.link_create w0) (env.pdMS_TO_TICKS 2)] := by
  obtain ⟨s1, s2, s3, s4, s5, h⟩ := send_shape env n a d l w0
  rw [h]
  split <;> simp [since_append, stepCalls, Event.status]

/-- The fallible steps of one `pca9555_i2c_receive`. -/
theorem receive_stepCalls (env : Env) (a : Int) (buf : Ptr) (len : Nat) (w0 : World) :
    stepCalls (since w0 (pca9555_i2c_receive env a buf len w0).2) =
      [Call.i2c_master_start (env.link_create w0),
       Call.i2c_master_write_byte (env.link_create w0)
         (to_uint8 (Int.lor (a <<< (1 : Int)) I2C_MASTER_READ)) true] ++
      (if 1 < len then
        [Call.i2c_master_read (env.link_create w0) buf (len - 1) i2c_ack_type_t.I2C_MASTER_ACK]
       else []) ++
      [Call.i2c_master_read_byte (env.link_create w0) (buf + len - 1)
         i2c_ack_type_t.I2C_MASTER_NACK,
       Call.i2c_master_stop (env.link_create w0),
       Call.i2c_master_cmd_begin I2C_NUM_0 (env.link_create w0) (env.pdMS_TO_TICKS 5)] := by
  by_cases hlen : 1 < len
  · obtain ⟨s1, s2, s3, s4, s5, s6, h⟩ := receive_shape_multi env a buf len w0 hlen
    rw [h]
    split <;> simp [since_append, stepCalls, Event.status, hlen]
  · obtain ⟨s1, s2, s4, s5, s6, h⟩ := receive_shape_single env a buf len w0 hlen
    rw [h]
    split <;> simp [since_append, stepCalls, Event.status, hlen]

/-- The handles one `pca9555_i2c_send` obtains from the library. -/
theorem send_handles (env : Env) (n a : Int) (d : Ptr) (l : Nat) (w0 : World) :
    handles (since w0 (pca9555_i2c_send env n a d l w0).2) = [env.link_create w0] := by
  obtain ⟨s1, s2, s3, s4, s5, h⟩ := send_shape env n a d l w0
  rw [h]
  split <;> simp [since_append, handles]

/-- The handles one `pca9555_i2c_receive` obtains from the library. -/
theorem receive_handles (env : Env) (a : Int) (buf : Ptr) (len : Nat) (w0 : World) :
    handles (since w0 (pca9555_i2c_receive env a buf len w0).2) = [env.link_create w0] := by
  by_cases hlen : 1 < len
  · obtain ⟨s1, s2, s3, s4, s5, s6, h⟩ := receive_shape_multi env a buf len w0 hlen
    rw [h]
    split <;> simp [since_append, handles]
  · obtain ⟨s1, s2, s4, s5, s6, h⟩ := receive_shape_single env a buf len w0 hlen
    rw [h]
    split <;> simp [since_append, handles]

/-- The logging statement queues nothing: the transaction of all calls is the
transaction of the library calls. -/
theorem transaction_calls (mem : Ptr → Nat) (cmd : i2c_cmd_handle_t) (evs : List Event) :
    transaction mem cmd (calls evs) = transaction mem cmd (busOps evs) := by
  induction evs with
  | nil => rfl
  | cons e es ih =>
    cases hc : e.call <;>
      simp_all [transaction, calls, busOps, Call.isBusOp, List.filter_cons, queued]

/-- The bytes of a multi-byte write are the payload that lies at `data`. -/
theorem write_items (mem : Ptr → Nat) (data : Ptr) (payload : List Nat)
    (hmem : ∀ (i : Nat) (hi : i < payload.length), mem (data + (i : Int)) = payload[i]) :
    ((List.range payload.length).map fun (i : Nat) => BusItem.write (mem (data + (i : Int))) true)
      = payload.map fun b => BusItem.write b true := by
  apply List.ext_getElem
  · simp
  · intro i h1 h2
    simp only [List.length_map, List.length_range] at h1
    simp [hmem i h1]

/-- The targets of a run of reads into consecutive addresses. -/
theorem readTargets_reads (buf : Ptr) (ack : i2c_ack_type_t) (l : List Nat) :
    readTargets (l.map fun (i : Nat) => BusItem.read (buf + (i : Int)) ack) =
      l.map fun (i : Nat) => buf + (i : Int) := by
  induction l with
  | nil => rfl
  | cons x xs ih =>
    simp only [readTargets, List.map_cons, List.filterMap_cons, BusItem.target] at ih ⊢
    rw [ih]

/-- The targets of two runs of bus items, one after the other. -/
theorem readTargets_append (xs ys : List BusItem) :
    readTargets (xs ++ ys) = readTargets xs ++ readTargets ys := by
  simp [readTargets, List.filterMap_append]

/-- A result computed from the aggregated status is `-1` exactly when some
status is not `ESP_OK`, and `0` otherwise. -/
theorem result_of_statuses (r : Int) (l : List esp_err_t)
    (h : r = if List.foldl Int.lor ESP_OK l ≠ ESP_OK then -1 else 0) :
    (r = -1 ↔ ∃ s ∈ l, s ≠ ESP_OK) ∧ (r = 0 ↔ ∀ s ∈ l, s = ESP_OK) ∧ (r = 0 ∨ r = -1) := by
  have hz : List.foldl Int.lor ESP_OK l = ESP_OK ↔ ∀ s ∈ l, s = ESP_OK := by
    have := foldl_lor_eq_zero l ESP_OK
    simpa [ESP_OK] using this
  by_cases hc : List.foldl Int.lor ESP_OK l = ESP_OK
  · have hall := hz.mp hc
    rw [if_neg (not_not.mpr hc)] at h
    subst h
    refine ⟨⟨fun h0 => absurd h0 (by decide), ?_⟩, ⟨fun _ => hall, fun _ => rfl⟩, Or.inl rfl⟩
    rintro ⟨s, hs, hne⟩
    exact absurd (hall s hs) hne
  · have hex : ∃ s ∈ l, s ≠ ESP_OK := by
      by_contra hno
      push_neg at hno
      exact hc (hz.mpr hno)
    rw [if_pos hc] at h
    subst h
    refine ⟨⟨fun _ => hex, fun _ => rfl⟩, ⟨fun h0 => absurd h0 (by decide), ?_⟩, Or.inr rfl⟩
    intro hall
    exact absurd (hz.mpr hall) hc

/-! ## The claims -/

/-- C1 (write framing order).  For every bus, every 7-bit address `a` and
every payload lying at `data`, `pca9555_i2c_send` makes exactly these library
calls, in this order: create, start, the address byte `2 * a` with acknowledge
checking, the multi-byte write of the payload with acknowledge checking, stop,
submit, release.  The command link then holds: start, the address byte
`2 * a`, the payload bytes unmodified and in order, stop. -/
theorem send_framing_order (env : Env) (i2c_num : Int) (a : Nat) (data : Ptr)
    (payload : List Nat) (mem : Ptr → Nat) (w0 : World) (ha : a ≤ 127)
    (hmem : ∀ (i : Nat) (hi : i < payload.length), mem (data + (i : Int)) = payload[i]) :
    busOps (since w0 (pca9555_i2c_send env i2c_num (a : Int) data payload.length w0).2) =
      [Call.i2c_cmd_link_create,
       Call.i2c_master_start (env.link_create w0),
       Call.i2c_master_write_byte (env.link_create w0) (2 * a) true,
       Call.i2c_master_write (env.link_create w0) data payload.length true,
       Call.i2c_master_stop (env.link_create w0),
       Call.i2c_master_cmd_begin i2c_num (env.link_create w0) (env.pdMS_TO_TICKS 2),
       Call.i2c_cmd_link_delete (env.link_create w0)] ∧
    transaction mem (env.link_create w0)
        (calls (since w0 (pca9555_i2c_send env i2c_num (a : Int) data payload.length w0).2)) =
      [BusItem.start, BusItem.write (2 * a) true] ++
        (payload.map fun b => BusItem.write b true) ++ [BusItem.stop] := by
  have hb := send_busOps env i2c_num (a : Int) data payload.length w0
  rw [write_address_byte a ha] at hb
  refine ⟨hb, ?_⟩
  rw [transaction_calls, hb]
  simp only [transaction, queued, List.map_cons, List.map_nil, if_true, List.flatten_cons,
    List.flatten_nil, write_items mem data payload hmem]
  simp

/-- Witness of the write framing at address `0x20` with the payload
`[0x01, 0x02, 0x03]`: the address byte is `0x40`. -/
theorem send_framing_order_witness :
    busOps (since [] (pca9555_i2c_send okEnv 1 ((0x20 : Nat) : Int) 1000
        [0x01, 0x02, 0x03].length []).2) =
      [Call.i2c_cmd_link_create,
       Call.i2c_master_start 7,
       Call.i2c_master_write_byte 7 0x40 true,
       Call.i2c_master_write 7 1000 3 true,
       Call.i2c_master_stop 7,
       Call.i2c_master_cmd_begin 1 7 2,
       Call.i2c_cmd_link_delete 7] ∧
    transaction demoMem 7
        (calls (since [] (pca9555_i2c_send okEnv 1 ((0x20 : Nat) : Int) 1000
          [0x01, 0x02, 0x03].length []).2)) =
      [BusItem.start, BusItem.write 0x40 true, BusItem.write 0x01 true, BusItem.write 0x02 true,
       BusItem.write 0x03 true, BusItem.stop] :=
  send_framing_order okEnv 1 0x20 1000 [0x01, 0x02, 0x03] demoMem [] (by decide)
    (by
      intro i hi
      have h3 : i < 3 := hi
      interval_cases i <;> rfl)


/-- C2 (read framing for length at least 2).  For every 7-bit address `a` and
every length `L ≥ 2`, `pca9555_i2c_receive` makes exactly these library calls,
in this order: create, start, the address byte `2 * a + 1` with acknowledge
checking, one acknowledge-read of `L - 1` bytes at the start of the buffer, one
no-acknowledge read of a single byte at offset `L - 1`, stop, submit, release.
The command link then holds `L - 1` acknowledged reads into offsets
`0 .. L - 2`, then one not acknowledged read into offset `L - 1`; the reads
store into the offsets `0 .. L - 1`, in this order, each once. -/
theorem receive_framing_multi (env : Env) (a : Nat) (data_buffer : Ptr) (L : Nat)
    (mem : Ptr → Nat) (w0 : World) (ha : a ≤ 127) (hL : 2 ≤ L) :
    busOps (since w0 (pca9555_i2c_receive env (a : Int) data_buffer L w0).2) =
      [Call.i2c_cmd_link_create,
       Call.i2c_master_start (env.link_create w0),
       Call.i2c_master_write_byte (env.link_create w0) (2 * a + 1) true,
       Call.i2c_master_read (env.link_create w0) data_buffer (L - 1)
         i2c_ack_type_t.I2C_MASTER_ACK,
       Call.i2c_master_read_byte (env.link_create w0) (data_buffer + ((L - 1 : Nat) : Int))
         i2c_ack_type_t.I2C_MASTER_NACK,
       Call.i2c_master_stop (env.link_create w0),
       Call.i2c_master_cmd_begin I2C_NUM_0 (env.link_create w0) (env.pdMS_TO_TICKS 5),
       Call.i2c_cmd_link_delete (env.link_create w0)] ∧
    transaction mem (env.link_create w0)
        (calls (since w0 (pca9555_i2c_receive env (a : Int) data_buffer L w0).2)) =
      [BusItem.start, BusItem.write (2 * a + 1) true] ++
        ((List.range (L - 1)).map fun (i : Nat) =>
          BusItem.read (data_buffer + (i : Int)) i2c_ack_type_t.I2C_MASTER_ACK) ++
        [BusItem.read (data_buffer + ((L - 1 : Nat) : Int)) i2c_ack_type_t.I2C_MASTER_NACK,
         BusItem.stop] ∧
    readTargets (transaction mem (env.link_create w0)
        (calls (since w0 (pca9555_i2c_receive env (a : Int) data_buffer L w0).2))) =
      (List.range L).map fun (i : Nat) => data_buffer + (i : Int) := by
  obtain ⟨m, rfl⟩ : ∃ m, L = m + 1 := ⟨L - 1, by omega⟩
  have hlen : 1 < m + 1 := by omega
  have hp : data_buffer + ((m + 1 : Nat) : Int) - 1 = data_buffer + (m : Int) := by
    push_cast
    ring
  have hb := receive_busOps env (a : Int) data_buffer (m + 1) w0
  rw [read_address_byte a ha, if_pos hlen, hp] at hb
  simp only [Nat.add_sub_cancel, List.cons_append, List.nil_append, List.append_assoc] at hb ⊢
  have ht : transaction mem (env.link_create w0)
      (calls (since w0 (pca9555_i2c_receive env (a : Int) data_buffer (m + 1) w0).2)) =
      BusItem.start :: BusItem.write (2 * a + 1) true ::
        (((List.range m).map fun (i : Nat) =>
          BusItem.read (data_buffer + (i : Int)) i2c_ack_type_t.I2C_MASTER_ACK) ++
        [BusItem.read (data_buffer + (m : Int)) i2c_ack_type_t.I2C_MASTER_NACK,
         BusItem.stop]) := by
    rw [transaction_calls, hb]
    simp [transaction, queued, ackOf]
  refine ⟨hb, ht, ?_⟩
  rw [ht]
  have h2 : ∀ xs : List BusItem,
      readTargets (BusItem.start :: BusItem.write (2 * a + 1) true :: xs) = readTargets xs :=
    fun _ => rfl
  rw [h2, readTargets_append, readTargets_reads, List.range_succ, List.map_append]
  rfl

/-- Witness of the read framing at address `0x21` with `L = 3`: the address byte
is `0x43`. -/
theorem receive_framing_multi_witness :
    busOps (since [] (pca9555_i2c_receive okEnv ((0x21 : Nat) : Int) 1000 3 []).2) =
      [Call.i2c_cmd_link_create,
       Call.i2c_master_start 7,
       Call.i2c_master_write_byte 7 0x43 true,
       Call.i2c_master_read 7 1000 2 i2c_ack_type_t.I2C_MASTER_ACK,
       Call.i2c_master_read_byte 7 1002 i2c_ack_type_t.I2C_MASTER_NACK,
       Call.i2c_master_stop 7,
       Call.i2c_master_cmd_begin 0 7 5,
       Call.i2c_cmd_link_delete 7] ∧
    transaction demoMem 7
        (calls (since [] (pca9555_i2c_receive okEnv ((0x21 : Nat) : Int) 1000 3 []).2)) =
      [BusItem.start, BusItem.write 0x43 true,
       BusItem.read 1000 i2c_ack_type_t.I2C_MASTER_ACK,
       BusItem.read 1001 i2c_ack_type_t.I2C_MASTER_ACK,
       BusItem.read 1002 i2c_ack_type_t.I2C_MASTER_NACK,
       BusItem.stop] ∧
    readTargets (transaction demoMem 7
        (calls (since [] (pca9555_i2c_receive okEnv ((0x21 : Nat) : Int) 1000 3 []).2))) =
      [1000, 1001, 1002] :=
  receive_framing_multi okEnv 0x21 1000 3 demoMem [] (by decide) (by decide)


/-- C3 (read framing for length 1).  For every device address,
`pca9555_i2c_receive` with `len = 1` makes no acknowledge-read call: between the
address byte and the stop it makes a single no-acknowledge read, at offset `0` of
the buffer.  The command link holds one read, not acknowledged, and it stores
into the first byte of the buffer only. -/
theorem receive_framing_single (env : Env) (i2c_addr : Int) (data_buffer : Ptr)
    (mem : Ptr → Nat) (w0 : World) :
    busOps (since w0 (pca9555_i2c_receive env i2c_addr data_buffer 1 w0).2) =
      [Call.i2c_cmd_link_create,
       Call.i2c_master_start (env.link_create w0),
       Call.i2c_master_write_byte (env.link_create w0)
         (to_uint8 (Int.lor (i2c_addr <<< (1 : Int)) I2C_MASTER_READ)) true,
       Call.i2c_master_read_byte (env.link_create w0) data_buffer
         i2c_ack_type_t.I2C_MASTER_NACK,
       Call.i2c_master_stop (env.link_create w0),
       Call.i2c_master_cmd_begin I2C_NUM_0 (env.link_create w0) (env.pdMS_TO_TICKS 5),
       Call.i2c_cmd_link_delete (env.link_create w0)] ∧
    transaction mem (env.link_create w0)
        (calls (since w0 (pca9555_i2c_receive env i2c_addr data_buffer 1 w0).2)) =
      [BusItem.start,
       BusItem.write (to_uint8 (Int.lor (i2c_addr <<< (1 : Int)) I2C_MASTER_READ)) true,
       BusItem.read data_buffer i2c_ack_type_t.I2C_MASTER_NACK,
       BusItem.stop] ∧
    readAcks (transaction mem (env.link_create w0)
        (calls (since w0 (pca9555_i2c_receive env i2c_addr data_buffer 1 w0).2))) =
      [i2c_ack_type_t.I2C_MASTER_NACK] ∧
    readTargets (transaction mem (env.link_create w0)
        (calls (since w0 (pca9555_i2c_receive env i2c_addr data_buffer 1 w0).2))) =
      [data_buffer] := by
  have hp : data_buffer + ((1 : Nat) : Int) - 1 = data_buffer := by
    push_cast
    ring
  have hb := receive_busOps env i2c_addr data_buffer 1 w0
  rw [if_neg (by decide), hp] at hb
  simp only [List.cons_append, List.nil_append, List.append_nil] at hb
  have ht : transaction mem (env.link_create w0)
      (calls (since w0 (pca9555_i2c_receive env i2c_addr data_buffer 1 w0).2)) =
      [BusItem.start,
       BusItem.write (to_uint8 (Int.lor (i2c_addr <<< (1 : Int)) I2C_MASTER_READ)) true,
       BusItem.read data_buffer i2c_ack_type_t.I2C_MASTER_NACK,
       BusItem.stop] := by
    rw [transaction_calls, hb]
    simp [transaction, queued]
  refine ⟨hb, ht, ?_, ?_⟩
  · rw [ht]
    rfl
  · rw [ht]
    rfl

/-- C4 (length zero), the code at `len = 0`.  `pca9555_i2c_receive` does not
reject the call: it builds a transaction whose single read, not acknowledged,
stores into the byte before the buffer (`data_buffer - 1`), submits it to bus
`0`, and returns `0` when every library call succeeds. -/
theorem receive_zero_length (env : Env) (i2c_addr : Int) (data_buffer : Ptr)
    (mem : Ptr → Nat) (w0 : World) :
    busOps (since w0 (pca9555_i2c_receive env i2c_addr data_buffer 0 w0).2) =
      [Call.i2c_cmd_link_create,
       Call.i2c_master_start (env.link_create w0),
       Call.i2c_master_write_byte (env.link_create w0)
         (to_uint8 (Int.lor (i2c_addr <<< (1 : Int)) I2C_MASTER_READ)) true,
       Call.i2c_master_read_byte (env.link_create w0) (data_buffer - 1)
         i2c_ack_type_t.I2C_MASTER_NACK,
       Call.i2c_master_stop (env.link_create w0),
       Call.i2c_master_cmd_begin I2C_NUM_0 (env.link_create w0) (env.pdMS_TO_TICKS 5),
       Call.i2c_cmd_link_delete (env.link_create w0)] ∧
    readTargets (transaction mem (env.link_create w0)
        (calls (since w0 (pca9555_i2c_receive env i2c_addr data_buffer 0 w0).2))) =
      [data_buffer - 1] ∧
    (pca9555_i2c_receive okEnv i2c_addr data_buffer 0 w0).1 = 0 := by
  have hp : data_buffer + ((0 : Nat) : Int) - 1 = data_buffer - 1 := by
    push_cast
    ring
  have hb := receive_busOps env i2c_addr data_buffer 0 w0
  rw [if_neg (by decide), hp] at hb
  simp only [List.cons_append, List.nil_append, List.append_nil] at hb
  refine ⟨hb, ?_, ?_⟩
  · rw [transaction_calls, hb]
    simp [transaction, queued, readTargets, BusItem.target]
  · simp [pca9555_i2c_receive, i2c_cmd_link_create, i2c_master_start, i2c_master_write_byte,
      i2c_master_read_byte, i2c_master_stop, i2c_master_cmd_begin, i2c_cmd_link_delete,
      fallible, procedure, okEnv, ESP_OK, zero_lor, since_append, statuses, Event.status]


/-- C5 (resource release on every exit path).  Whatever the library answers,
one call of `pca9555_i2c_send` and one call of `pca9555_i2c_receive` each
create exactly one command link, obtain exactly one handle, and release exactly
once, that handle; from the submit on, the library calls are the submit and
then the release, which is the last one before returning. -/
theorem transaction_released_once (env : Env) (i2c_num i2c_addr : Int) (data : Ptr)
    (len : Nat) (w0 : World) :
    ((busOps (since w0 (pca9555_i2c_send env i2c_num i2c_addr data len w0).2)).filter
        Call.isCreate = [Call.i2c_cmd_link_create] ∧
      handles (since w0 (pca9555_i2c_send env i2c_num i2c_addr data len w0).2) =
        [env.link_create w0] ∧
      (busOps (since w0 (pca9555_i2c_send env i2c_num i2c_addr data len w0).2)).filter
        Call.isDelete = [Call.i2c_cmd_link_delete (env.link_create w0)] ∧
      (busOps (since w0 (pca9555_i2c_send env i2c_num i2c_addr data len w0).2)).dropWhile
        (fun c => !c.isSubmit) =
        [Call.i2c_master_cmd_begin i2c_num (env.link_create w0) (env.pdMS_TO_TICKS 2),
         Call.i2c_cmd_link_delete (env.link_create w0)]) ∧
    ((busOps (since w0 (pca9555_i2c_receive env i2c_addr data len w0).2)).filter
        Call.isCreate = [Call.i2c_cmd_link_create] ∧
      handles (since w0 (pca9555_i2c_receive env i2c_addr data len w0).2) =
        [env.link_create w0] ∧
      (busOps (since w0 (pca9555_i2c_receive env i2c_addr data len w0).2)).filter
        Call.isDelete = [Call.i2c_cmd_link_delete (env.link_create w0)] ∧
      (busOps (since w0 (pca9555_i2c_receive env i2c_addr data len w0).2)).dropWhile
        (fun c => !c.isSubmit) =
        [Call.i2c_master_cmd_begin I2C_NUM_0 (env.link_create w0) (env.pdMS_TO_TICKS 5),
         Call.i2c_cmd_link_delete (env.link_create w0)]) := by
  refine ⟨⟨?_, send_handles env i2c_num i2c_addr data len w0, ?_, ?_⟩,
    ⟨?_, receive_handles env i2c_addr data len w0, ?_, ?_⟩⟩
  · rw [send_busOps]
    rfl
  · rw [send_busOps]
    simp [List.filter_cons, Call.isDelete]
  · rw [send_busOps]
    rfl
  · rw [receive_busOps]
    by_cases hlen : 1 < len <;> simp [hlen, List.filter_cons, Call.isCreate]
  · rw [receive_busOps]
    by_cases hlen : 1 < len <;> simp [hlen, List.filter_cons, Call.isDelete]
  · rw [receive_busOps]
    by_cases hlen : 1 < len <;> simp [hlen, List.dropWhile_cons, Call.isSubmit]

/-- C6 (timeout bounds).  For every input and every answer of the library,
`pca9555_i2c_send` submits exactly once, with the tick count of 2 milliseconds,
and `pca9555_i2c_receive` submits exactly once, with the tick count of 5
milliseconds. -/
theorem submit_timeouts (env : Env) (i2c_num i2c_addr : Int) (data : Ptr) (len : Nat)
    (w0 : World) :
    (busOps (since w0 (pca9555_i2c_send env i2c_num i2c_addr data len w0).2)).filter
        Call.isSubmit =
      [Call.i2c_master_cmd_begin i2c_num (env.link_create w0) (env.pdMS_TO_TICKS 2)] ∧
    (busOps (since w0 (pca9555_i2c_receive env i2c_addr data len w0).2)).filter
        Call.isSubmit =
      [Call.i2c_master_cmd_begin I2C_NUM_0 (env.link_create w0) (env.pdMS_TO_TICKS 5)] := by
  constructor
  · rw [send_busOps]
    simp [List.filter_cons, Call.isSubmit]
  · rw [receive_busOps]
    by_cases hlen : 1 < len <;> simp [hlen, List.filter_cons, Call.isSubmit]


/-- C7 (initializer error handling).  `pca9555_i2c_start` first applies the
parameter set to bus `config.i2c_iface_num`.  When that call does not return
`ESP_OK` it is the only library call and the result is `-1`.  Otherwise the
controller installation follows, once, on the same bus, in master mode with
zero buffer sizes and flags, and the result is `-1` when it does not return
`ESP_OK`.  The result is `0` exactly when both calls return `ESP_OK`. -/
theorem start_error_handling (env : Env) (config : pca9555_config_t) (w0 : World) :
    calls (since w0 (pca9555_i2c_start env config w0).2) =
      (if env.status w0
          (Call.i2c_param_config config.i2c_iface_num (start_i2c_config config)) ≠ ESP_OK then
        [Call.i2c_param_config config.i2c_iface_num (start_i2c_config config)]
      else
        [Call.i2c_param_config config.i2c_iface_num (start_i2c_config config),
         Call.i2c_driver_install config.i2c_iface_num i2c_mode_t.I2C_MODE_MASTER 0 0 0]) ∧
    (pca9555_i2c_start env config w0).1 =
      (if env.status w0
          (Call.i2c_param_config config.i2c_iface_num (start_i2c_config config)) ≠ ESP_OK then
        -1
      else if env.status
          (w0 ++ [⟨Call.i2c_param_config config.i2c_iface_num (start_i2c_config config),
            Ret.status (env.status w0
              (Call.i2c_param_config config.i2c_iface_num (start_i2c_config config)))⟩])
          (Call.i2c_driver_install config.i2c_iface_num i2c_mode_t.I2C_MODE_MASTER 0 0 0)
          ≠ ESP_OK then
        -1
      else 0) ∧
    ((pca9555_i2c_start env config w0).1 = 0 ↔
      env.status w0
          (Call.i2c_param_config config.i2c_iface_num (start_i2c_config config)) = ESP_OK ∧
        env.status
          (w0 ++ [⟨Call.i2c_param_config config.i2c_iface_num (start_i2c_config config),
            Ret.status (env.status w0
              (Call.i2c_param_config config.i2c_iface_num (start_i2c_config config)))⟩])
          (Call.i2c_driver_install config.i2c_iface_num i2c_mode_t.I2C_MODE_MASTER 0 0 0)
          = ESP_OK) ∧
    (start_i2c_config config).mode = i2c_mode_t.I2C_MODE_MASTER := by
  have hdef : pca9555_i2c_start env config w0 =
      if env.status w0
          (Call.i2c_param_config config.i2c_iface_num (start_i2c_config config)) ≠ ESP_OK then
        (-1, w0 ++ [⟨Call.i2c_param_config config.i2c_iface_num (start_i2c_config config),
            Ret.status (env.status w0
              (Call.i2c_param_config config.i2c_iface_num (start_i2c_config config)))⟩])
      else if env.status
          (w0 ++ [⟨Call.i2c_param_config config.i2c_iface_num (start_i2c_config config),
            Ret.status (env.status w0
              (Call.i2c_param_config config.i2c_iface_num (start_i2c_config config)))⟩])
          (Call.i2c_driver_install config.i2c_iface_num i2c_mode_t.I2C_MODE_MASTER 0 0 0)
          ≠ ESP_OK then
        (-1, w0 ++ [⟨Call.i2c_param_config config.i2c_iface_num (start_i2c_config config),
            Ret.status (env.status w0
              (Call.i2c_param_config config.i2c_iface_num (start_i2c_config config)))⟩,
          ⟨Call.i2c_driver_install config.i2c_iface_num i2c_mode_t.I2C_MODE_MASTER 0 0 0,
            Ret.status (env.status
              (w0 ++ [⟨Call.i2c_param_config config.i2c_iface_num (start_i2c_config config),
                Ret.status (env.status w0
                  (Call.i2c_param_config config.i2c_iface_num (start_i2c_config config)))⟩])
              (Call.i2c_driver_install config.i2c_iface_num i2c_mode_t.I2C_MODE_MASTER
                0 0 0))⟩])
      else
        (0, w0 ++ [⟨Call.i2c_param_config config.i2c_iface_num (start_i2c_config config),
            Ret.status (env.status w0
              (Call.i2c_param_config config.i2c_iface_num (start_i2c_config config)))⟩,
          ⟨Call.i2c_driver_install config.i2c_iface_num i2c_mode_t.I2C_MODE_MASTER 0 0 0,
            Ret.status (env.status
              (w0 ++ [⟨Call.i2c_param_config config.i2c_iface_num (start_i2c_config config),
                Ret.status (env.status w0
                  (Call.i2c_param_config config.i2c_iface_num (start_i2c_config config)))⟩])
              (Call.i2c_driver_install config.i2c_iface_num i2c_mode_t.I2C_MODE_MASTER
                0 0 0))⟩]) := by
    simp only [pca9555_i2c_start, i2c_param_config, i2c_driver_install, fallible,
      List.append_assoc, List.singleton_append]
  rw [hdef]
  refine ⟨?_, ?_, ?_, rfl⟩
  · split_ifs <;> simp [since_append, calls]
  · split_ifs <;> rfl
  · split_ifs with h1 h2
    · exact ⟨fun h0 => absurd (show (-1 : Int) = 0 from h0) (by decide),
        fun h => absurd h.1 h1⟩
    · exact ⟨fun h0 => absurd (show (-1 : Int) = 0 from h0) (by decide),
        fun h => absurd h.2 h2⟩
    · exact ⟨fun _ => ⟨not_not.mp h1, not_not.mp h2⟩, fun _ => rfl⟩

/-- C8 (two-valued result from the aggregated status).  For every input and
whatever status codes the library returns, `pca9555_i2c_send` and
`pca9555_i2c_receive` return `-1` exactly when one of the status codes returned
by their fallible steps (start, address byte, data phase, stop, submit) is not
`ESP_OK`, return `0` exactly when all are `ESP_OK`, and return nothing else. -/
theorem two_valued_result (env : Env) (i2c_num i2c_addr : Int) (data : Ptr) (len : Nat)
    (w0 : World) :
    (((pca9555_i2c_send env i2c_num i2c_addr data len w0).1 = -1 ↔
        ∃ s ∈ statuses (since w0 (pca9555_i2c_send env i2c_num i2c_addr data len w0).2),
          s ≠ ESP_OK) ∧
      ((pca9555_i2c_send env i2c_num i2c_addr data len w0).1 = 0 ↔
        ∀ s ∈ statuses (since w0 (pca9555_i2c_send env i2c_num i2c_addr data len w0).2),
          s = ESP_OK) ∧
      ((pca9555_i2c_send env i2c_num i2c_addr data len w0).1 = 0 ∨
        (pca9555_i2c_send env i2c_num i2c_addr data len w0).1 = -1)) ∧
    (((pca9555_i2c_receive env i2c_addr data len w0).1 = -1 ↔
        ∃ s ∈ statuses (since w0 (pca9555_i2c_receive env i2c_addr data len w0).2),
          s ≠ ESP_OK) ∧
      ((pca9555_i2c_receive env i2c_addr data len w0).1 = 0 ↔
        ∀ s ∈ statuses (since w0 (pca9555_i2c_receive env i2c_addr data len w0).2),
          s = ESP_OK) ∧
      ((pca9555_i2c_receive env i2c_addr data len w0).1 = 0 ∨
        (pca9555_i2c_receive env i2c_addr data len w0).1 = -1)) ∧
    stepCalls (since w0 (pca9555_i2c_send env i2c_num i2c_addr data len w0).2) =
      [Call.i2c_master_start (env.link_create w0),
       Call.i2c_master_write_byte (env.link_create w0)
         (to_uint8 (Int.lor (i2c_addr <<< (1 : Int)) I2C_MASTER_WRITE)) true,
       Call.i2c_master_write (env.link_create w0) data len true,
       Call.i2c_master_stop (env.link_create w0),
       Call.i2c_master_cmd_begin i2c_num (env.link_create w0) (env.pdMS_TO_TICKS 2)] ∧
    stepCalls (since w0 (pca9555_i2c_receive env i2c_addr data len w0).2) =
      [Call.i2c_master_start (env.link_create w0),
       Call.i2c_master_write_byte (env.link_create w0)
         (to_uint8 (Int.lor (i2c_addr <<< (1 : Int)) I2C_MASTER_READ)) true] ++
      (if 1 < len then
        [Call.i2c_master_read (env.link_create w0) data (len - 1)
          i2c_ack_type_t.I2C_MASTER_ACK]
       else []) ++
      [Call.i2c_master_read_byte (env.link_create w0) (data + len - 1)
         i2c_ack_type_t.I2C_MASTER_NACK,
       Call.i2c_master_stop (env.link_create w0),
       Call.i2c_master_cmd_begin I2C_NUM_0 (env.link_create w0) (env.pdMS_TO_TICKS 5)] :=
  ⟨result_of_statuses _ _ (send_ret env i2c_num i2c_addr data len w0),
   result_of_statuses _ _ (receive_ret env i2c_addr data len w0),
   send_stepCalls env i2c_num i2c_addr data len w0,
   receive_stepCalls env i2c_addr data len w0⟩


/-- C9 (no short-circuit on failure).  For fixed arguments and a fixed handle,
the sequence of library calls of `pca9555_i2c_send`, and of
`pca9555_i2c_receive`, is the same under every two assignments `status1`,
`status2` of status codes to the steps; the submit is among the calls whatever
the status codes of the framing steps are. -/
theorem no_short_circuit (link_create : World → i2c_cmd_handle_t)
    (pdMS_TO_TICKS : Nat → Nat) (status1 status2 : World → Call → esp_err_t)
    (i2c_num i2c_addr : Int) (data : Ptr) (len : Nat) (w0 : World) :
    busOps (since w0
        (pca9555_i2c_send ⟨link_create, status1, pdMS_TO_TICKS⟩ i2c_num i2c_addr data len w0).2) =
      busOps (since w0
        (pca9555_i2c_send ⟨link_create, status2, pdMS_TO_TICKS⟩ i2c_num i2c_addr data len w0).2) ∧
    busOps (since w0
        (pca9555_i2c_receive ⟨link_create, status1, pdMS_TO_TICKS⟩ i2c_addr data len w0).2) =
      busOps (since w0
        (pca9555_i2c_receive ⟨link_create, status2, pdMS_TO_TICKS⟩ i2c_addr data len w0).2) ∧
    Call.i2c_master_cmd_begin i2c_num (link_create w0) (pdMS_TO_TICKS 2) ∈
      busOps (since w0
        (pca9555_i2c_send ⟨link_create, status1, pdMS_TO_TICKS⟩ i2c_num i2c_addr data len w0).2) ∧
    Call.i2c_master_cmd_begin I2C_NUM_0 (link_create w0) (pdMS_TO_TICKS 5) ∈
      busOps (since w0
        (pca9555_i2c_receive ⟨link_create, status1, pdMS_TO_TICKS⟩ i2c_addr data len w0).2) := by
  refine ⟨?_, ?_, ?_, ?_⟩
  · rw [send_busOps, send_busOps]
  · rw [receive_busOps, receive_busOps]
  · rw [send_busOps]
    simp
  · rw [receive_busOps]
    simp

/-- C10 (bus instance selection).  After `pca9555_i2c_start` has configured any
bus instance, `pca9555_i2c_receive` submits its transaction, once, to bus
instance `0`, and `pca9555_i2c_send` submits its transaction, once, to the bus
instance `i2c_num` it was given. -/
theorem bus_instance_selection (env : Env) (config : pca9555_config_t)
    (i2c_num i2c_addr : Int) (data : Ptr) (len : Nat) (w0 : World) :
    (busOps (since (pca9555_i2c_start env config w0).2
        (pca9555_i2c_receive env i2c_addr data len
          (pca9555_i2c_start env config w0).2).2)).filter Call.isSubmit =
      [Call.i2c_master_cmd_begin 0 (env.link_create (pca9555_i2c_start env config w0).2)
        (env.pdMS_TO_TICKS 5)] ∧
    (busOps (since (pca9555_i2c_start env config w0).2
        (pca9555_i2c_send env i2c_num i2c_addr data len
          (pca9555_i2c_start env config w0).2).2)).filter Call.isSubmit =
      [Call.i2c_master_cmd_begin i2c_num
        (env.link_create (pca9555_i2c_start env config w0).2) (env.pdMS_TO_TICKS 2)] := by
  constructor
  · rw [receive_busOps]
    by_cases hlen : 1 < len <;> simp [hlen, List.filter_cons, Call.isSubmit, I2C_NUM_0]
  · rw [send_busOps]
    simp [List.filter_cons, Call.isSubmit]

end PCA9555
